import Mathlib

/-!
# Verification of `telegram_openai_assistant.bot`

A shallow embedding of `src/telegram_openai_assistant/bot.py` (the
multi-bot launcher of the `telegramai` repository) together with proofs
about its lifecycle behaviour.

The module under study:
* class `Bot` — per-instance wrapper: `__init__` builds a PTB
  `Application`, wires a `BotHandlers` object and registers the three
  handlers; `run` awaits `application.initialize()`, then
  `application.bot.set_my_commands(...)`, then
  `application.run_polling()`; `stop` awaits `application.stop()` then
  `application.shutdown()`.
* `start_bots` — returns early with a logged error when either
  configured list is empty, otherwise builds one `Bot` per
  `zip(telegram_token_bots, assistant_id_bots)` entry and awaits
  `asyncio.gather` over all `bot.run()` coroutines.
* `main` — `asyncio.run(start_bots())` inside `try/except
  KeyboardInterrupt`.

Pure, sequential pieces (construction, handler registration, the effect
sequence of `stop`) are embedded as Lean functions.  The concurrent part
(`asyncio.gather` over the `run()` coroutines, plus the documented
clean-up behaviour of `asyncio.run`) is embedded as a labelled
small-step transition system over the fleet's state, so that claims
about interleavings, failure propagation and monotonicity of the run
state can be stated over traces.
-/

namespace TgBot

/-- The `BotHandlers` object from `handlers.py` as constructed by
`Bot.__init__`: `BotHandlers(self.assistant_id, self.telegram_token)`.
Only its identity (which assistant / token it is bound to) matters
here; its method bodies live outside the studied module. -/
structure BotHandlers where
  assistant_id : String
  telegram_token : String
deriving DecidableEq, Repr

/-- A callback passed to a handler constructor in `_setup_handlers`:
`self.handlers.start`, `self.handlers.help_command` or
`self.handlers.process_message` — a bound method of the instance's own
`BotHandlers` object. -/
inductive Callback where
  | start (h : BotHandlers)
  | help_command (h : BotHandlers)
  | process_message (h : BotHandlers)
deriving DecidableEq, Repr

/-- The update-filter expressions used in `_setup_handlers`
(`filters.TEXT`, `filters.COMMAND` and the `&` / `~` combinators of the
`telegram.ext.filters` algebra). -/
inductive MsgFilter where
  | text
  | command
  | and (a b : MsgFilter)
  | compl (a : MsgFilter)
deriving DecidableEq, Repr

/-- An inbound Telegram message as far as the registered filters
observe it: whether it carries text, and whether a bot-command entity
sits at offset 0 (which is what `filters.COMMAND` keys on). -/
structure InboundMessage where
  text : Option String
  hasLeadingBotCommand : Bool
deriving DecidableEq, Repr

/-- Modelled from the spec: the messaging-platform filter boundary
(spec section 6; the `filters` implementation is the external
python-telegram-bot library, not part of this repository).
`filters.TEXT` matches messages carrying text, `filters.COMMAND`
matches messages whose text starts with a bot command, and `&` / `~`
are boolean conjunction and complement. -/
def MsgFilter.matches : MsgFilter → InboundMessage → Bool
  | .text, m => m.text.isSome
  | .command, m => m.hasLeadingBotCommand
  | .and a b, m => a.matches m && b.matches m
  | .compl a, m => !(a.matches m)

/-- A handler registered on the application:
`CommandHandler(name, callback)` or `MessageHandler(filter, callback)`. -/
inductive Handler where
  | commandHandler (name : String) (cb : Callback)
  | messageHandler (f : MsgFilter) (cb : Callback)
deriving DecidableEq, Repr

/-- `Bot._setup_handlers`: the three `add_handler` calls, in source
order — `CommandHandler("start", self.handlers.start)`,
`CommandHandler("help", self.handlers.help_command)`, and
`MessageHandler(filters.TEXT & ~filters.COMMAND,
self.handlers.process_message)`. -/
def setup_handlers (h : BotHandlers) : List Handler :=
  [ Handler.commandHandler "start" (Callback.start h),
    Handler.commandHandler "help" (Callback.help_command h),
    Handler.messageHandler (MsgFilter.and MsgFilter.text
      (MsgFilter.compl MsgFilter.command)) (Callback.process_message h) ]

/-- One `Bot` instance after `__init__`: the stored token and assistant
id, the `BotHandlers` object wired to them, and the handlers registered
on the freshly built application. -/
structure Bot where
  assistant_id : String
  telegram_token : String
  handlers : BotHandlers
  appHandlers : List Handler
deriving DecidableEq, Repr

/-- `Bot.__init__(telegram_token, assistant_id)`: stores both strings,
builds the application, constructs
`BotHandlers(assistant_id, telegram_token)` and runs
`_setup_handlers`. -/
def Bot.init (telegram_token assistant_id : String) : Bot :=
  let h : BotHandlers := ⟨assistant_id, telegram_token⟩
  { assistant_id := assistant_id
    telegram_token := telegram_token
    handlers := h
    appHandlers := setup_handlers h }

/-- An awaited side effect on the instance's `Application` issued by
`Bot.stop`. -/
inductive AppEffect where
  | appStop
  | appShutdown
deriving DecidableEq, Repr

/-- `Bot.stop`: unconditionally awaits `self.application.stop()` and
then `self.application.shutdown()` — there is no guard on the
application's current state. The effect sequence of one call. -/
def Bot.stop (_b : Bot) : List AppEffect :=
  [AppEffect.appStop, AppEffect.appShutdown]

/-- The effect sequence produced by calling `Bot.stop` `n` times in a
row on the same instance. -/
def stopCalls (b : Bot) : Nat → List AppEffect
  | 0 => []
  | n + 1 => stopCalls b n ++ b.stop

/-- The observable outcome of `start_bots` up to (but not including)
the concurrent `asyncio.gather` phase: whether the empty-configuration
error was logged, which `Bot` instances were constructed, and whether
execution reached the `await asyncio.gather(...)` line. -/
structure StartBotsResult where
  loggedError : Bool
  bots : List Bot
  gathered : Bool
deriving DecidableEq, Repr

/-- `start_bots`: `if not telegram_token_bots or not assistant_id_bots`
log an error and return; otherwise build
`[Bot(token, asst_id) for token, asst_id in zip(telegram_token_bots,
assistant_id_bots)]` and proceed to `asyncio.gather`. -/
def start_bots (telegram_token_bots assistant_id_bots : List String) :
    StartBotsResult :=
  if telegram_token_bots = [] ∨ assistant_id_bots = [] then
    { loggedError := true, bots := [], gathered := false }
  else
    { loggedError := false
      bots := (telegram_token_bots.zip assistant_id_bots).map
        (fun p => Bot.init p.1 p.2)
      gathered := true }

/-- Zipping the two projections of a pair list recovers the list. -/
theorem zip_proj_eq {α β : Type} (l : List (α × β)) :
    (l.map Prod.fst).zip (l.map Prod.snd) = l := by
  induction l with
  | nil => rfl
  | cons hd tl ih => simp [List.zip, List.zipWith, ih]

/-- C1: for every configured sequence of (credential, assistant-identity)
pairs, `start_bots` constructs exactly one `Bot` per pair, in
configuration order, duplicates included (each zip entry yields its own
`Bot.init` instance); in particular the number of instances equals the
number of pairs. -/
theorem C1_one_instance_per_pair (pairs : List (String × String)) :
    (start_bots (pairs.map Prod.fst) (pairs.map Prod.snd)).bots
      = pairs.map (fun p => Bot.init p.1 p.2) ∧
    (start_bots (pairs.map Prod.fst) (pairs.map Prod.snd)).bots.length
      = pairs.length := by
  by_cases hp : pairs = []
  · subst hp; exact ⟨rfl, rfl⟩
  · have hcond : ¬ (pairs.map Prod.fst = [] ∨ pairs.map Prod.snd = []) := by
      simp [hp]
    have hbots : (start_bots (pairs.map Prod.fst) (pairs.map Prod.snd)).bots
        = pairs.map (fun p => Bot.init p.1 p.2) := by
      simp only [start_bots, if_neg hcond]
      rw [zip_proj_eq pairs]
    exact ⟨hbots, by rw [hbots, List.length_map]⟩

/-- C4: with an empty credential list or an empty assistant-identity
list, `start_bots` logs the configuration error, constructs no `Bot`,
never reaches the `asyncio.gather` polling phase, and returns normally
(the early `return` statement). -/
theorem C4_empty_config_no_launch (tokens ids : List String)
    (h : tokens = [] ∨ ids = []) :
    start_bots tokens ids
      = { loggedError := true, bots := [], gathered := false } := by
  simp [start_bots, h]

/-- Closed witness for C4 at a concrete input: an empty token list with
one assistant id configured. -/
theorem C4_empty_config_no_launch_witness :
    start_bots [] ["asst1"]
      = { loggedError := true, bots := [], gathered := false } :=
  C4_empty_config_no_launch [] ["asst1"] (Or.inl rfl)

/-- C10: when both configured lists are non-empty but of different
lengths, `start_bots` builds exactly `min` of the two lengths many
instances — `zip` silently drops the excess entries of the longer
list — and no error is logged for the dropped entries. -/
theorem C10_zip_truncates_to_min (tokens ids : List String)
    (ht : tokens ≠ []) (hi : ids ≠ []) :
    (start_bots tokens ids).bots.length = min tokens.length ids.length ∧
    (start_bots tokens ids).loggedError = false ∧
    (start_bots tokens ids).gathered = true := by
  have hcond : ¬ (tokens = [] ∨ ids = []) := by
    rintro (h | h) <;> [exact ht h; exact hi h]
  refine ⟨?_, ?_, ?_⟩ <;> simp [start_bots, hcond, List.length_zip]

/-- Closed witness for C10: two tokens against one assistant id yields
exactly one instance and no logged error. -/
theorem C10_zip_truncates_to_min_witness :
    (start_bots ["tokA", "tokB"] ["asst1"]).bots.length = min 2 1 ∧
    (start_bots ["tokA", "tokB"] ["asst1"]).loggedError = false ∧
    (start_bots ["tokA", "tokB"] ["asst1"]).gathered = true :=
  C10_zip_truncates_to_min ["tokA", "tokB"] ["asst1"]
    (by decide) (by decide)

/-- C7: `Bot.__init__` registers exactly the `start` and `help` command
handlers plus the single catch-all `MessageHandler` with filter
`TEXT & ~COMMAND`, whose callback is the `process_message` method of
the `BotHandlers` object bound to this instance's assistant identity;
and that filter accepts an inbound message exactly when it carries text
and is not a command, so command messages are never forwarded to the
dispatcher callback. -/
theorem C7_handlers_registered (token asst : String) :
    (Bot.init token asst).appHandlers
      = [ Handler.commandHandler "start" (Callback.start ⟨asst, token⟩),
          Handler.commandHandler "help" (Callback.help_command ⟨asst, token⟩),
          Handler.messageHandler
            (MsgFilter.and MsgFilter.text (MsgFilter.compl MsgFilter.command))
            (Callback.process_message ⟨asst, token⟩) ] ∧
    (Bot.init token asst).handlers.assistant_id = asst ∧
    ∀ m : InboundMessage,
      (MsgFilter.and MsgFilter.text
        (MsgFilter.compl MsgFilter.command)).matches m
        = (m.text.isSome && !m.hasLeadingBotCommand) := by
  refine ⟨rfl, rfl, fun m => ?_⟩
  rfl

/-- The claim of C6 as stated: calling `Bot.stop` a second time in a
row is a no-op, i.e. it adds no further teardown effects beyond the
first call's. -/
def claimC6 : Prop :=
  ∀ b : Bot, stopCalls b 2 = stopCalls b 1

/-- C6 counterexample: on the concrete instance `Bot("tok", "asst")`
the second `Bot.stop` call is not a no-op — it issues `application.stop()`
and `application.shutdown()` a second time, so the application's
teardown pair is received twice. -/
theorem C6_counterexample : ¬ claimC6 := by
  intro h
  have := h (Bot.init "tok" "asst")
  simp [stopCalls, Bot.stop] at this

/-- C6 amended: `Bot.stop` is not idempotent.  Every call — including a
call on an already-stopped instance — unconditionally re-issues the
`application.stop(); application.shutdown()` teardown sequence, so `n`
calls deliver `n` shutdown effects to the application rather than one. -/
theorem C6_amended_stop_not_idempotent (b : Bot) (n : Nat) :
    b.stop = [AppEffect.appStop, AppEffect.appShutdown] ∧
    stopCalls b (n + 1) = stopCalls b n ++ b.stop ∧
    (stopCalls b n).count AppEffect.appShutdown = n ∧
    stopCalls b 2 ≠ stopCalls b 1 := by
  refine ⟨rfl, rfl, ?_, ?_⟩
  · induction n with
    | zero => rfl
    | succ k ih => simp [stopCalls, Bot.stop, ih]
  · simp [stopCalls, Bot.stop]

/-! ## The concurrent phase

`start_bots` awaits `asyncio.gather(*(bot.run() for bot in bots))`.
Each `Bot.run` is the straight-line coroutine
`initialize(); set_my_commands(...); run_polling()`, so a bot task
moves through the program points below; `run_polling` is the external
platform library's long-poll loop, modelled from the spec at its
interface boundary (it returns only on a stop request or an
unrecoverable connection failure).  The orchestration semantics are
those documented for the standard library primitives used on lines
105-116 of `bot.py`:

* `asyncio.gather` (default `return_exceptions=False`): the first
  exception raised by a child propagates to the awaiter, the other
  children are not cancelled by `gather` itself and keep running;
* `asyncio.run`: when the main coroutine finishes — normally or with
  an exception, including `KeyboardInterrupt` from SIGINT — it cancels
  all remaining tasks before returning/re-raising;
* `main`: `try: asyncio.run(start_bots()) except KeyboardInterrupt:`
  logs and returns normally; any other exception propagates out of the
  process entry point. -/

/-- Program point of one bot task inside `Bot.run`. -/
inductive Phase where
  /-- constructed by `Bot.__init__`, `run()` not yet scheduled past its
  first await -/
  | created
  /-- `await self.application.initialize()` returned -/
  | initialized
  /-- `await self.application.bot.set_my_commands(...)` returned -/
  | commandsSet
  /-- inside `await self.application.run_polling()`, receiving updates -/
  | polling
  /-- `application.initialize()` raised (e.g. the token was rejected) -/
  | initFailed
  /-- `run_polling` raised an unrecoverable connection failure -/
  | pollFailed
  /-- `run_polling` returned after a stop request; `run()` returned -/
  | stoppedOk
  /-- the task was cancelled by `asyncio.run`'s clean-up -/
  | cancelled
deriving DecidableEq, Repr

/-- A bot task that has finished (normally, by failure, or by
cancellation). -/
def Phase.isTerminal : Phase → Bool
  | .initFailed | .pollFailed | .stoppedOk | .cancelled => true
  | _ => false

/-- A bot task that finished by raising an exception into
`asyncio.gather`. -/
def Phase.isFailure : Phase → Bool
  | .initFailed | .pollFailed => true
  | _ => false

/-- State of the orchestrating `main` / `asyncio.run` pair. -/
inductive OrchPhase where
  /-- `start_bots` is awaiting `asyncio.gather` -/
  | gathering
  /-- a child exception propagated through `gather`, `start_bots` and
  `asyncio.run`; `main` does not catch it -/
  | exitedRaised
  /-- SIGINT delivered `KeyboardInterrupt`; `asyncio.run` tore down and
  `main`'s `except KeyboardInterrupt` caught it -/
  | exitedInterrupted
  /-- every `run()` returned normally, so `gather` and `start_bots`
  returned -/
  | exitedNormal
deriving DecidableEq, Repr

/-- Global state of the launched fleet: one phase per bot (listed in
construction order) plus the orchestrator's state. -/
structure SysState where
  bots : List Phase
  orch : OrchPhase
deriving DecidableEq, Repr

/-- `asyncio.run`'s clean-up: every task that has not already finished
is cancelled. -/
def cancelAll (bots : List Phase) : List Phase :=
  bots.map (fun p => if p.isTerminal then p else Phase.cancelled)

/-- The event that fires in a scheduling step. -/
inductive Label where
  /-- bot `i`'s `application.initialize()` completes (or raises) -/
  | initDone (i : Nat)
  /-- bot `i`'s `set_my_commands` completes -/
  | cmdsDone (i : Nat)
  /-- bot `i` enters `run_polling` and starts receiving -/
  | pollBegin (i : Nat)
  /-- bot `i`'s connection fails unrecoverably during polling -/
  | pollConnFail (i : Nat)
  /-- a stop request ends bot `i`'s `run_polling` normally -/
  | stopSignal (i : Nat)
  /-- a child exception reaches `asyncio.run`, which cancels the other
  tasks and re-raises out of `main` -/
  | raiseExit
  /-- SIGINT: `KeyboardInterrupt` reaches `asyncio.run`, which cancels
  all tasks; `main` catches it -/
  | intSignal
  /-- all `run()` coroutines returned, `gather` returns -/
  | gatherReturn
deriving DecidableEq, Repr

/-- One scheduling step of the gathered fleet.  `initOk i` records the
environment: whether bot `i`'s credential is accepted when
`application.initialize()` runs. -/
inductive Step (initOk : Nat → Bool) : SysState → Label → SysState → Prop where
  | initDone (i : Nat) (s : SysState)
      (ho : s.orch = OrchPhase.gathering)
      (hb : s.bots[i]? = some Phase.created) :
      Step initOk s (Label.initDone i)
        ⟨s.bots.set i
          (if initOk i then Phase.initialized else Phase.initFailed), s.orch⟩
  | cmdsDone (i : Nat) (s : SysState)
      (ho : s.orch = OrchPhase.gathering)
      (hb : s.bots[i]? = some Phase.initialized) :
      Step initOk s (Label.cmdsDone i) ⟨s.bots.set i Phase.commandsSet, s.orch⟩
  | pollBegin (i : Nat) (s : SysState)
      (ho : s.orch = OrchPhase.gathering)
      (hb : s.bots[i]? = some Phase.commandsSet) :
      Step initOk s (Label.pollBegin i) ⟨s.bots.set i Phase.polling, s.orch⟩
  | pollConnFail (i : Nat) (s : SysState)
      (ho : s.orch = OrchPhase.gathering)
      (hb : s.bots[i]? = some Phase.polling) :
      Step initOk s (Label.pollConnFail i) ⟨s.bots.set i Phase.pollFailed, s.orch⟩
  | stopSignal (i : Nat) (s : SysState)
      (ho : s.orch = OrchPhase.gathering)
      (hb : s.bots[i]? = some Phase.polling) :
      Step initOk s (Label.stopSignal i) ⟨s.bots.set i Phase.stoppedOk, s.orch⟩
  | raiseExit (s : SysState)
      (ho : s.orch = OrchPhase.gathering)
      (hf : ∃ (i : Nat) (p : Phase), s.bots[i]? = some p ∧ p.isFailure = true) :
      Step initOk s Label.raiseExit ⟨cancelAll s.bots, OrchPhase.exitedRaised⟩
  | intSignal (s : SysState)
      (ho : s.orch = OrchPhase.gathering) :
      Step initOk s Label.intSignal ⟨cancelAll s.bots, OrchPhase.exitedInterrupted⟩
  | gatherReturn (s : SysState)
      (ho : s.orch = OrchPhase.gathering)
      (hall : ∀ p ∈ s.bots, p = Phase.stoppedOk) :
      Step initOk s Label.gatherReturn ⟨s.bots, OrchPhase.exitedNormal⟩

/-- Finitely many scheduling steps (labels existentially dropped). -/
inductive Steps (initOk : Nat → Bool) : SysState → SysState → Prop where
  | refl (s : SysState) : Steps initOk s s
  | tail {s t u : SysState} {l : Label} :
      Steps initOk s t → Step initOk t l u → Steps initOk s u

/-- The fleet state right after `start_bots` constructs its `n` bots
and awaits `asyncio.gather`. -/
def initState (n : Nat) : SysState :=
  ⟨List.replicate n Phase.created, OrchPhase.gathering⟩

/-- What the process observes of `main` once `asyncio.run` has
finished. -/
inductive MainOutcome where
  /-- `main` returns normally; the console script exits with status 0 -/
  | exitZero
  /-- the exception propagates out of `main`; the process dies with a
  traceback -/
  | uncaughtException
deriving DecidableEq, Repr

/-- `main`: `try: asyncio.run(start_bots()) except KeyboardInterrupt:
logger.info(...)`.  A `KeyboardInterrupt` is caught and `main` returns
normally; any other exception escapes. -/
def mainOutcome : OrchPhase → Option MainOutcome
  | OrchPhase.gathering => none
  | OrchPhase.exitedRaised => some MainOutcome.uncaughtException
  | OrchPhase.exitedInterrupted => some MainOutcome.exitZero
  | OrchPhase.exitedNormal => some MainOutcome.exitZero

/-- The spec's run-state alphabet (section 3 of the design). -/
inductive RunState where
  | Created
  | Initializing
  | Polling
  | Stopping
  | Stopped
deriving DecidableEq, Repr

/-- Position of a run state along the spec's monotonic sequence
`Created → Initializing → Polling → Stopping → Stopped`. -/
def RunState.idx : RunState → Nat
  | .Created => 0
  | .Initializing => 1
  | .Polling => 2
  | .Stopping => 3
  | .Stopped => 4

/-- The spec-level run state observed at each program point of
`Bot.run`: construction is `Created`; the awaits before polling are the
`Initializing` stage; `run_polling` is `Polling`; every way out of the
coroutine (normal return, failure, cancellation) is `Stopped`
(`Stopping` is transient inside the library teardown and not observable
between our steps). -/
def Phase.runState : Phase → RunState
  | .created => RunState.Created
  | .initialized => RunState.Initializing
  | .commandsSet => RunState.Initializing
  | .polling => RunState.Polling
  | .initFailed => RunState.Stopped
  | .pollFailed => RunState.Stopped
  | .stoppedOk => RunState.Stopped
  | .cancelled => RunState.Stopped

/-- Fine-grained progress rank of a program point; strictly refines
`Phase.runState`. -/
def Phase.rank : Phase → Nat
  | .created => 0
  | .initialized => 1
  | .commandsSet => 2
  | .polling => 3
  | .initFailed => 4
  | .pollFailed => 4
  | .stoppedOk => 4
  | .cancelled => 4

/-- An index holding an element is within bounds. -/
theorem lt_length_of_getElem? {α : Type} {l : List α} {i : Nat} {a : α}
    (h : l[i]? = some a) : i < l.length :=
  (List.getElem?_eq_some.mp h).1

/-- Every in-bounds index holds an element. -/
theorem getElem?_isSome_of_lt {α : Type} (l : List α) (i : Nat)
    (h : i < l.length) : ∃ a, l[i]? = some a :=
  ⟨l[i], List.getElem?_eq_getElem h⟩

/-- A scheduling step never changes the number of bot tasks. -/
theorem step_length_eq {initOk : Nat → Bool} {s s' : SysState} {l : Label}
    (h : Step initOk s l s') : s'.bots.length = s.bots.length := by
  cases h <;> simp [cancelAll, List.length_set]

/-- Scheduling steps never change the number of bot tasks. -/
theorem steps_length_eq {initOk : Nat → Bool} {s s' : SysState}
    (h : Steps initOk s s') : s'.bots.length = s.bots.length := by
  induction h with
  | refl => rfl
  | tail _hst hstep ih => rw [step_length_eq hstep, ih]

/-- One scheduling step can only increase a bot task's progress rank. -/
theorem step_rank_mono {initOk : Nat → Bool} {s s' : SysState} {l : Label}
    {i : Nat} {p p' : Phase}
    (h : Step initOk s l s')
    (hp : s.bots[i]? = some p) (hp' : s'.bots[i]? = some p') :
    p.rank ≤ p'.rank := by
  have hi : i < s.bots.length := lt_length_of_getElem? hp
  cases h with
  | initDone j s ho hb =>
    by_cases hij : j = i
    · subst hij
      rw [hp] at hb
      rw [List.getElem?_set_self hi] at hp'
      cases hb
      cases hp'
      by_cases hok : initOk j <;> simp [hok, Phase.rank]
    · rw [List.getElem?_set_ne hij, hp] at hp'
      cases hp'
      exact Nat.le_refl _
  | cmdsDone j s ho hb =>
    by_cases hij : j = i
    · subst hij
      rw [hp] at hb
      rw [List.getElem?_set_self hi] at hp'
      cases hb
      cases hp'
      decide
    · rw [List.getElem?_set_ne hij, hp] at hp'
      cases hp'
      exact Nat.le_refl _
  | pollBegin j s ho hb =>
    by_cases hij : j = i
    · subst hij
      rw [hp] at hb
      rw [List.getElem?_set_self hi] at hp'
      cases hb
      cases hp'
      decide
    · rw [List.getElem?_set_ne hij, hp] at hp'
      cases hp'
      exact Nat.le_refl _
  | pollConnFail j s ho hb =>
    by_cases hij : j = i
    · subst hij
      rw [hp] at hb
      rw [List.getElem?_set_self hi] at hp'
      cases hb
      cases hp'
      decide
    · rw [List.getElem?_set_ne hij, hp] at hp'
      cases hp'
      exact Nat.le_refl _
  | stopSignal j s ho hb =>
    by_cases hij : j = i
    · subst hij
      rw [hp] at hb
      rw [List.getElem?_set_self hi] at hp'
      cases hb
      cases hp'
      decide
    · rw [List.getElem?_set_ne hij, hp] at hp'
      cases hp'
      exact Nat.le_refl _
  | raiseExit s ho hf =>
    simp only [cancelAll, List.getElem?_map, hp, Option.map_some'] at hp'
    cases hp'
    cases p <;> decide
  | intSignal s ho =>
    simp only [cancelAll, List.getElem?_map, hp, Option.map_some'] at hp'
    cases hp'
    cases p <;> decide
  | gatherReturn s ho hall =>
    rw [hp] at hp'
    cases hp'
    exact Nat.le_refl _

/-- Across any number of scheduling steps a bot task's progress rank
never decreases. -/
theorem steps_rank_mono {initOk : Nat → Bool} {s s' : SysState}
    (h : Steps initOk s s') :
    ∀ {i : Nat} {p p' : Phase},
      s.bots[i]? = some p → s'.bots[i]? = some p' → p.rank ≤ p'.rank := by
  induction h with
  | refl =>
    intro i p p' hp hp'
    rw [hp] at hp'
    cases hp'
    exact Nat.le_refl _
  | tail hst hstep ih =>
    intro i p p' hp hp'
    obtain ⟨q, hq⟩ := getElem?_isSome_of_lt _ i
      (by rw [steps_length_eq hst]; exact lt_length_of_getElem? hp)
    exact Nat.le_trans (ih hp hq) (step_rank_mono hstep hq hp')

/-- Progress rank refines the spec's run-state order: if the rank does
not decrease, neither does the run state's position along the spec
sequence. -/
theorem runState_idx_mono_of_rank {p q : Phase} (h : p.rank ≤ q.rank) :
    p.runState.idx ≤ q.runState.idx := by
  revert h
  cases p <;> cases q <;> decide

/-- A task that failed has finished. -/
theorem isTerminal_of_isFailure {p : Phase} (h : p.isFailure = true) :
    p.isTerminal = true := by
  cases p <;> first | rfl | exact Bool.noConfusion h

/-- After `asyncio.run`'s clean-up every task has finished. -/
theorem cancelAll_terminal {bots : List Phase} {p : Phase}
    (hp : p ∈ cancelAll bots) : p.isTerminal = true := by
  simp only [cancelAll, List.mem_map] at hp
  obtain ⟨q, _, rfl⟩ := hp
  cases q <;> decide

/-- Tasks whose credential the platform rejects can only sit at their
pre-initialization point, at the failed point, or be cancelled. -/
def noProgressPastBadInit (initOk : Nat → Bool) (s : SysState) : Prop :=
  ∀ i, initOk i = false → ∀ p, s.bots[i]? = some p →
    p = Phase.created ∨ p = Phase.initFailed ∨ p = Phase.cancelled

/-- If the orchestrator exited by re-raising a child exception, some
bot task did fail. -/
def raisedHasFailure (s : SysState) : Prop :=
  s.orch = OrchPhase.exitedRaised →
    ∃ (j : Nat) (p : Phase), s.bots[j]? = some p ∧ p.isFailure = true

/-- One scheduling step preserves `noProgressPastBadInit`. -/
theorem step_preserves_noProgress {initOk : Nat → Bool}
    {s s' : SysState} {l : Label} (h : Step initOk s l s')
    (hinv : noProgressPastBadInit initOk s) :
    noProgressPastBadInit initOk s' := by
  cases h with
  | initDone j s ho hb =>
    intro i hbad p hp
    by_cases hij : j = i
    · subst hij
      rw [List.getElem?_set_self (lt_length_of_getElem? hb)] at hp
      cases hp
      rw [hbad]
      exact Or.inr (Or.inl rfl)
    · rw [List.getElem?_set_ne hij] at hp
      exact hinv i hbad p hp
  | cmdsDone j s ho hb =>
    intro i hbad p hp
    by_cases hij : j = i
    · subst hij
      rcases hinv j hbad Phase.initialized hb with h | h | h <;>
        exact Phase.noConfusion h
    · rw [List.getElem?_set_ne hij] at hp
      exact hinv i hbad p hp
  | pollBegin j s ho hb =>
    intro i hbad p hp
    by_cases hij : j = i
    · subst hij
      rcases hinv j hbad Phase.commandsSet hb with h | h | h <;>
        exact Phase.noConfusion h
    · rw [List.getElem?_set_ne hij] at hp
      exact hinv i hbad p hp
  | pollConnFail j s ho hb =>
    intro i hbad p hp
    by_cases hij : j = i
    · subst hij
      rcases hinv j hbad Phase.polling hb with h | h | h <;>
        exact Phase.noConfusion h
    · rw [List.getElem?_set_ne hij] at hp
      exact hinv i hbad p hp
  | stopSignal j s ho hb =>
    intro i hbad p hp
    by_cases hij : j = i
    · subst hij
      rcases hinv j hbad Phase.polling hb with h | h | h <;>
        exact Phase.noConfusion h
    · rw [List.getElem?_set_ne hij] at hp
      exact hinv i hbad p hp
  | raiseExit s ho hf =>
    intro i hbad p hp
    simp only [cancelAll, List.getElem?_map] at hp
    cases hq : s.bots[i]? with
    | none => rw [hq] at hp; exact Option.noConfusion hp
    | some q =>
      rw [hq] at hp
      simp only [Option.map_some'] at hp
      cases hp
      rcases hinv i hbad q hq with h | h | h <;> subst h <;>
        simp [Phase.isTerminal]
  | intSignal s ho =>
    intro i hbad p hp
    simp only [cancelAll, List.getElem?_map] at hp
    cases hq : s.bots[i]? with
    | none => rw [hq] at hp; exact Option.noConfusion hp
    | some q =>
      rw [hq] at hp
      simp only [Option.map_some'] at hp
      cases hp
      rcases hinv i hbad q hq with h | h | h <;> subst h <;>
        simp [Phase.isTerminal]
  | gatherReturn s ho hall =>
    intro i hbad p hp
    exact hinv i hbad p hp

/-- Any step's target satisfies `raisedHasFailure`: the only way into
`exitedRaised` is `raiseExit`, whose enabling condition is a failed
child, and clean-up preserves the failed child's phase. -/
theorem step_raisedHasFailure {initOk : Nat → Bool}
    {s s' : SysState} {l : Label} (h : Step initOk s l s') :
    raisedHasFailure s' := by
  cases h with
  | initDone j s ho hb => intro hr; rw [ho] at hr; exact OrchPhase.noConfusion hr
  | cmdsDone j s ho hb => intro hr; rw [ho] at hr; exact OrchPhase.noConfusion hr
  | pollBegin j s ho hb => intro hr; rw [ho] at hr; exact OrchPhase.noConfusion hr
  | pollConnFail j s ho hb => intro hr; rw [ho] at hr; exact OrchPhase.noConfusion hr
  | stopSignal j s ho hb => intro hr; rw [ho] at hr; exact OrchPhase.noConfusion hr
  | raiseExit s ho hf =>
    intro _
    obtain ⟨i, p, hip, hfp⟩ := hf
    refine ⟨i, p, ?_, hfp⟩
    simp only [cancelAll, List.getElem?_map, hip, Option.map_some',
      isTerminal_of_isFailure hfp, if_pos]
  | intSignal s ho => intro hr; exact OrchPhase.noConfusion hr
  | gatherReturn s ho hall => intro hr; exact OrchPhase.noConfusion hr

/-- Both invariants hold in every state reachable from the launch
state. -/
theorem steps_invariants {initOk : Nat → Bool} {n : Nat} {s : SysState}
    (h : Steps initOk (initState n) s) :
    noProgressPastBadInit initOk s ∧ raisedHasFailure s := by
  induction h with
  | refl =>
    constructor
    · intro i hbad p hp
      rcases List.getElem?_replicate.symm ▸ hp with hp'
      by_cases hi : i < n
      · simp only [initState, List.getElem?_replicate, if_pos hi] at hp
        cases hp
        exact Or.inl rfl
      · simp only [initState, List.getElem?_replicate, if_neg hi] at hp
        exact Option.noConfusion hp
    · intro hr
      exact OrchPhase.noConfusion hr
  | tail hst hstep ih =>
    exact ⟨step_preserves_noProgress hstep ih.1, step_raisedHasFailure hstep⟩

/-- The claim of C2 as stated: in every execution of the launched
fleet, if any instance's `initialize()` has failed then no instance is
(or ever was) polling — launch aborts before any instance begins
polling. -/
def claimC2 : Prop :=
  ∀ (initOk : Nat → Bool) (n : Nat) (s : SysState),
    Steps initOk (initState n) s →
    (∃ i : Nat, s.bots[i]? = some Phase.initFailed) →
    ∀ j : Nat, s.bots[j]? ≠ some Phase.polling

/-- The environment of the C2 counterexample: bot 0's credential is
rejected by `application.initialize()`, bot 1's is accepted. -/
def envBadFirst : Nat → Bool := fun i => i != 0

/-- C2 counterexample: with two configured pairs whose first credential
is bad, the scheduler may run bot 1 through `initialize`,
`set_my_commands` and into `run_polling` and only then let bot 0's
`initialize()` raise: the reached state has bot 0 failed while bot 1 is
polling, so `start_bots` does not abort before an instance begins
polling — `asyncio.gather` neither waits for all initializations nor
cancels the siblings. -/
theorem C2_counterexample : ¬ claimC2 := by
  intro h
  have h1 : Steps envBadFirst (initState 2)
      ⟨[Phase.created, Phase.initialized], OrchPhase.gathering⟩ :=
    Steps.tail (Steps.refl _) (Step.initDone 1 (initState 2) rfl rfl)
  have h2 : Steps envBadFirst (initState 2)
      ⟨[Phase.created, Phase.commandsSet], OrchPhase.gathering⟩ :=
    Steps.tail h1 (Step.cmdsDone 1 _ rfl rfl)
  have h3 : Steps envBadFirst (initState 2)
      ⟨[Phase.created, Phase.polling], OrchPhase.gathering⟩ :=
    Steps.tail h2 (Step.pollBegin 1 _ rfl rfl)
  have h4 : Steps envBadFirst (initState 2)
      ⟨[Phase.initFailed, Phase.polling], OrchPhase.gathering⟩ :=
    Steps.tail h3 (Step.initDone 0 _ rfl rfl)
  exact h envBadFirst 2 _ h4 ⟨0, rfl⟩ 1 rfl

/-- C2 amended: an instance whose `initialize()` fails never itself
begins polling, and whenever the orchestrator has exited by re-raising
(the only aggregate failure surface of `asyncio.gather`), some instance
really did fail; but sibling instances may already be polling when the
failure happens — the launch is not all-or-nothing. -/
theorem C2_amended_failed_instance_never_polls (initOk : Nat → Bool)
    (n : Nat) (s : SysState) (hs : Steps initOk (initState n) s)
    (i : Nat) (hbad : initOk i = false) :
    s.bots[i]? ≠ some Phase.polling ∧
    (s.orch = OrchPhase.exitedRaised →
      ∃ (j : Nat) (p : Phase), s.bots[j]? = some p ∧ p.isFailure = true) := by
  obtain ⟨hnp, hrf⟩ := steps_invariants hs
  constructor
  · intro hp
    rcases hnp i hbad Phase.polling hp with h | h | h <;> exact Phase.noConfusion h
  · exact hrf

/-- Closed witness for the amended C2 on a one-bot fleet with a
rejected credential, after its `initialize()` has raised. -/
theorem C2_amended_witness :
    (⟨[Phase.initFailed], OrchPhase.gathering⟩ : SysState).bots[0]?
      ≠ some Phase.polling ∧
    ((⟨[Phase.initFailed], OrchPhase.gathering⟩ : SysState).orch
        = OrchPhase.exitedRaised →
      ∃ (j : Nat) (p : Phase),
        (⟨[Phase.initFailed], OrchPhase.gathering⟩ : SysState).bots[j]?
          = some p ∧ p.isFailure = true) :=
  C2_amended_failed_instance_never_polls (fun _ => false) 1
    ⟨[Phase.initFailed], OrchPhase.gathering⟩
    (Steps.tail (Steps.refl _) (Step.initDone 0 (initState 1) rfl rfl))
    0 rfl

/-- The claim of C3 as stated: an unrecoverable connection failure in
one running instance stops only that instance — in no execution is a
sibling of a poll-failed instance ever cancelled. -/
def claimC3 : Prop :=
  ∀ (initOk : Nat → Bool) (n : Nat) (s : SysState),
    Steps initOk (initState n) s →
    ∀ i j : Nat, i ≠ j → s.bots[i]? = some Phase.pollFailed →
      s.bots[j]? ≠ some Phase.cancelled

/-- The environment of the C3 counterexample: both credentials are
accepted at `initialize()` time. -/
def envAllGood : Nat → Bool := fun _ => true

/-- C3 counterexample: two healthy instances reach polling; instance 0
then suffers an unrecoverable connection failure, its exception
propagates through `asyncio.gather` and `asyncio.run`, and the clean-up
cancels instance 1 — the reachable state has bot 0 poll-failed and bot
1 cancelled, so the failure did stop a sibling. -/
theorem C3_counterexample : ¬ claimC3 := by
  intro h
  have h1 : Steps envAllGood (initState 2)
      ⟨[Phase.initialized, Phase.created], OrchPhase.gathering⟩ :=
    Steps.tail (Steps.refl _) (Step.initDone 0 (initState 2) rfl rfl)
  have h2 : Steps envAllGood (initState 2)
      ⟨[Phase.commandsSet, Phase.created], OrchPhase.gathering⟩ :=
    Steps.tail h1 (Step.cmdsDone 0 _ rfl rfl)
  have h3 : Steps envAllGood (initState 2)
      ⟨[Phase.polling, Phase.created], OrchPhase.gathering⟩ :=
    Steps.tail h2 (Step.pollBegin 0 _ rfl rfl)
  have h4 : Steps envAllGood (initState 2)
      ⟨[Phase.polling, Phase.initialized], OrchPhase.gathering⟩ :=
    Steps.tail h3 (Step.initDone 1 _ rfl rfl)
  have h5 : Steps envAllGood (initState 2)
      ⟨[Phase.polling, Phase.commandsSet], OrchPhase.gathering⟩ :=
    Steps.tail h4 (Step.cmdsDone 1 _ rfl rfl)
  have h6 : Steps envAllGood (initState 2)
      ⟨[Phase.polling, Phase.polling], OrchPhase.gathering⟩ :=
    Steps.tail h5 (Step.pollBegin 1 _ rfl rfl)
  have h7 : Steps envAllGood (initState 2)
      ⟨[Phase.pollFailed, Phase.polling], OrchPhase.gathering⟩ :=
    Steps.tail h6 (Step.pollConnFail 0 _ rfl rfl)
  have h8 : Steps envAllGood (initState 2)
      ⟨[Phase.pollFailed, Phase.cancelled], OrchPhase.exitedRaised⟩ :=
    Steps.tail h7 (Step.raiseExit _ rfl ⟨0, Phase.pollFailed, rfl, rfl⟩)
  exact h envAllGood 2 _ h8 0 1 (by decide) rfl rfl

/-- C3 amended: when a child's exception propagates out of
`asyncio.gather` (the `raiseExit` clean-up of `asyncio.run`), some
instance did fail, the orchestrator exits in the raised state, `main`
does not catch the exception (only `KeyboardInterrupt` is caught), and
afterwards no instance is polling any more — every sibling has been
cancelled or had already finished.  One instance's failure therefore
takes down the whole fleet instead of being isolated. -/
theorem C3_amended_failure_stops_fleet (initOk : Nat → Bool)
    (s s' : SysState) (hstep : Step initOk s Label.raiseExit s') :
    (∃ (i : Nat) (p : Phase), s.bots[i]? = some p ∧ p.isFailure = true) ∧
    s'.orch = OrchPhase.exitedRaised ∧
    mainOutcome s'.orch = some MainOutcome.uncaughtException ∧
    ∀ j : Nat, s'.bots[j]? ≠ some Phase.polling := by
  cases hstep with
  | raiseExit s ho hf =>
    refine ⟨hf, rfl, rfl, fun j hj => ?_⟩
    simp only [cancelAll, List.getElem?_map] at hj
    cases hq : s.bots[j]? with
    | none => rw [hq] at hj; exact Option.noConfusion hj
    | some q =>
      rw [hq] at hj
      simp only [Option.map_some', Option.some_inj] at hj
      cases q <;> simp [Phase.isTerminal] at hj

/-- Closed witness for the amended C3: one poll-failed bot next to a
polling sibling, at the moment the exception reaches `asyncio.run`. -/
theorem C3_amended_witness :
    (∃ (i : Nat) (p : Phase),
      (⟨[Phase.pollFailed, Phase.polling], OrchPhase.gathering⟩ :
        SysState).bots[i]? = some p ∧ p.isFailure = true) ∧
    (⟨cancelAll [Phase.pollFailed, Phase.polling],
        OrchPhase.exitedRaised⟩ : SysState).orch = OrchPhase.exitedRaised ∧
    mainOutcome (⟨cancelAll [Phase.pollFailed, Phase.polling],
        OrchPhase.exitedRaised⟩ : SysState).orch
      = some MainOutcome.uncaughtException ∧
    ∀ j : Nat, (⟨cancelAll [Phase.pollFailed, Phase.polling],
        OrchPhase.exitedRaised⟩ : SysState).bots[j]? ≠ some Phase.polling :=
  C3_amended_failure_stops_fleet envAllGood
    ⟨[Phase.pollFailed, Phase.polling], OrchPhase.gathering⟩
    ⟨cancelAll [Phase.pollFailed, Phase.polling], OrchPhase.exitedRaised⟩
    (Step.raiseExit _ rfl ⟨0, Phase.pollFailed, rfl, rfl⟩)

/-- C5: a polling task never returns spontaneously — while a bot sits
inside `run_polling` (a non-terminal program point), the only events
that take it out of polling are a stop request ending `run_polling`, an
unrecoverable connection failure, or the cancellation performed by
`asyncio.run`'s teardown (itself triggered only by a sibling failure or
an interrupt signal). -/
theorem C5_polling_exits_only_on_stop_or_failure (initOk : Nat → Bool)
    (s s' : SysState) (l : Label) (i : Nat)
    (hstep : Step initOk s l s')
    (hpoll : s.bots[i]? = some Phase.polling)
    (hout : s'.bots[i]? ≠ some Phase.polling) :
    Phase.polling.isTerminal = false ∧
    (l = Label.stopSignal i ∨ l = Label.pollConnFail i ∨
      l = Label.raiseExit ∨ l = Label.intSignal) := by
  refine ⟨rfl, ?_⟩
  cases hstep with
  | initDone j s ho hb =>
    by_cases hij : j = i
    · subst hij; rw [hpoll] at hb; exact absurd hb (by simp)
    · exact absurd (by rw [List.getElem?_set_ne hij]; exact hpoll) hout
  | cmdsDone j s ho hb =>
    by_cases hij : j = i
    · subst hij; rw [hpoll] at hb; exact absurd hb (by simp)
    · exact absurd (by rw [List.getElem?_set_ne hij]; exact hpoll) hout
  | pollBegin j s ho hb =>
    by_cases hij : j = i
    · subst hij; rw [hpoll] at hb; exact absurd hb (by simp)
    · exact absurd (by rw [List.getElem?_set_ne hij]; exact hpoll) hout
  | pollConnFail j s ho hb =>
    by_cases hij : j = i
    · subst hij; exact Or.inr (Or.inl rfl)
    · exact absurd (by rw [List.getElem?_set_ne hij]; exact hpoll) hout
  | stopSignal j s ho hb =>
    by_cases hij : j = i
    · subst hij; exact Or.inl rfl
    · exact absurd (by rw [List.getElem?_set_ne hij]; exact hpoll) hout
  | raiseExit s ho hf => exact Or.inr (Or.inr (Or.inl rfl))
  | intSignal s ho => exact Or.inr (Or.inr (Or.inr rfl))
  | gatherReturn s ho hall => exact absurd hpoll hout

/-- Closed witness for C5: a one-bot fleet whose polling ends through a
stop request. -/
theorem C5_witness :
    Phase.polling.isTerminal = false ∧
    (Label.stopSignal 0 = Label.stopSignal 0 ∨
      Label.stopSignal 0 = Label.pollConnFail 0 ∨
      Label.stopSignal 0 = Label.raiseExit ∨
      Label.stopSignal 0 = Label.intSignal) :=
  C5_polling_exits_only_on_stop_or_failure envAllGood
    ⟨[Phase.polling], OrchPhase.gathering⟩
    ⟨[Phase.stoppedOk], OrchPhase.gathering⟩
    (Label.stopSignal 0) 0
    (Step.stopSignal 0 _ rfl rfl) rfl (by decide)

/-- C8: along any execution segment, a bot task's spec-level run state
moves only forward along
`Created → Initializing → Polling → Stopping → Stopped`; in particular
a task observed `Stopped` is never observed `Polling` later — a stopped
instance is never restarted. -/
theorem C8_run_state_monotone (initOk : Nat → Bool) (s s' : SysState)
    (i : Nat) (p p' : Phase) (h : Steps initOk s s')
    (hp : s.bots[i]? = some p) (hp' : s'.bots[i]? = some p') :
    p.runState.idx ≤ p'.runState.idx ∧
    (p.runState = RunState.Stopped → p'.runState ≠ RunState.Polling) := by
  have hidx := runState_idx_mono_of_rank (steps_rank_mono h hp hp')
  refine ⟨hidx, fun hstop hpoll => ?_⟩
  rw [hstop, hpoll] at hidx
  exact absurd hidx (by decide)

/-- Closed witness for C8: a single bot advancing from `created` to
`initialized` in one step. -/
theorem C8_witness :
    Phase.created.runState.idx ≤ Phase.initialized.runState.idx ∧
    (Phase.created.runState = RunState.Stopped →
      Phase.initialized.runState ≠ RunState.Polling) :=
  C8_run_state_monotone envAllGood (initState 1)
    ⟨[Phase.initialized], OrchPhase.gathering⟩ 0
    Phase.created Phase.initialized
    (Steps.tail (Steps.refl _) (Step.initDone 0 (initState 1) rfl rfl))
    rfl rfl

/-- C9: from any state in which the fleet is being gathered, delivery
of an interrupt signal makes `asyncio.run` cancel every task that has
not already finished (shutdown of all instances), and `main`'s
`except KeyboardInterrupt` catches the resulting exception so the
process exits with status 0. -/
theorem C9_interrupt_clean_exit (initOk : Nat → Bool) (s : SysState)
    (ho : s.orch = OrchPhase.gathering) :
    ∃ s', Step initOk s Label.intSignal s' ∧
      s'.orch = OrchPhase.exitedInterrupted ∧
      (∀ p ∈ s'.bots, p.isTerminal = true) ∧
      mainOutcome s'.orch = some MainOutcome.exitZero := by
  refine ⟨⟨cancelAll s.bots, OrchPhase.exitedInterrupted⟩,
    Step.intSignal s ho, rfl, ?_, rfl⟩
  intro p hp
  exact cancelAll_terminal hp

/-- Closed witness for C9: interrupting a freshly launched two-bot
fleet. -/
theorem C9_witness :
    ∃ s', Step envAllGood (initState 2) Label.intSignal s' ∧
      s'.orch = OrchPhase.exitedInterrupted ∧
      (∀ p ∈ s'.bots, p.isTerminal = true) ∧
      mainOutcome s'.orch = some MainOutcome.exitZero :=
  C9_interrupt_clean_exit envAllGood (initState 2) rfl

end TgBot
